import Mathlib

/-!
Shallow embedding of the EMAIL-SCRAPER core (discovery, pattern learning,
layered confidence, decay, rule enforcement) and proofs about it.

Conventions:
* Python floats are modelled as rationals (`ℚ`).
* Python dicts used as records are modelled as structures holding the fields
  the embedded code reads or writes; purely presentational fields that only
  interpolate numbers into log/label strings are elided.
* Python dicts used as maps (keyed by email address) are modelled as
  insertion-ordered association lists, matching dict iteration order.
* Ages derived from `datetime` subtraction are modelled by the resulting
  number of days (`ℕ`).
-/

/-! ### Character and string helpers -/

/-- ASCII lowercase-letter test, the semantics of the regex class `[a-z]`. -/
def isLowerCh (c : Char) : Bool := 'a' ≤ c && c ≤ 'z'

/-- ASCII lowering of one character, the effect of Python `str.lower()` on
the ASCII range that email code deals with. -/
def lowerCh (c : Char) : Char :=
  if 'A' ≤ c && c ≤ 'Z' then Char.ofNat (c.toNat + 32) else c

/-- Python `str.lower()` restricted to ASCII. -/
def toLowerStr (s : String) : String := ⟨s.data.map lowerCh⟩

/-- Split a character list at every occurrence of `c`, the semantics of
Python `str.split(c)`; always returns at least one (possibly empty) part. -/
def splitAtChar (c : Char) : List Char → List (List Char)
  | [] => [[]]
  | x :: xs =>
    match splitAtChar c xs with
    | [] => [[]]
    | h :: t => if x = c then [] :: h :: t else (x :: h) :: t

/-- Python `email.split("@")[0]`: the part before the first `@`
(the whole string when there is no `@`). -/
def localPartOf (email : String) : String :=
  match splitAtChar '@' email.data with
  | l :: _ => ⟨l⟩
  | [] => ""

/-- Python `email.split("@")[1]`: the part between the first and second `@`.
The Python code only reaches this on addresses containing `@`; on an
address without `@` Python would raise, modelled here as `""`. -/
def domainOf (email : String) : String :=
  match splitAtChar '@' email.data with
  | _ :: d :: _ => ⟨d⟩
  | _ => ""

/-- `startsWithL p l` iff `p` is an initial run of `l`. -/
def startsWithL : List Char → List Char → Bool
  | [], _ => true
  | _ :: _, [] => false
  | p :: ps, h :: hs => p == h && startsWithL ps hs

/-- Substring test on character lists, the semantics of Python `x in s`. -/
def containsL (pat : List Char) : List Char → Bool
  | [] => pat.isEmpty
  | h :: t => startsWithL pat (h :: t) || containsL pat t

/-- Suffix test, the semantics of Python `s.endswith(x)`. -/
def endsWithL (pat hay : List Char) : Bool :=
  startsWithL pat.reverse hay.reverse

/-! ### PatternDetector (src/backend/app/inference/pattern_detector.py) -/

/-- Anchored match of `^[a-z]{minFirst,}SEP[a-z]{2,}$` where the first
class run is maximal (the separator is not a lowercase letter, so the
regex decomposition is unique). -/
def matchSegSeg (minFirst : Nat) (sep : Char) (s : String) : Bool :=
  let a := s.data.takeWhile isLowerCh
  match s.data.dropWhile isLowerCh with
  | c :: b => c == sep && minFirst ≤ a.length && b.all isLowerCh && 2 ≤ b.length
  | [] => false

/-- Regex `^(?P<first>[a-z]{2,})\.(?P<last>[a-z]{2,})$`. -/
def matchFirstDotLast (s : String) : Bool := matchSegSeg 2 '.' s

/-- Regex `^(?P<first>[a-z]{2,})_(?P<last>[a-z]{2,})$`. -/
def matchFirstUscoreLast (s : String) : Bool := matchSegSeg 2 '_' s

/-- Regex `^(?P<first>[a-z]{2,})-(?P<last>[a-z]{2,})$`. -/
def matchFirstDashLast (s : String) : Bool := matchSegSeg 2 '-' s

/-- Regex `^(?P<first>[a-z])(?P<last>[a-z]{2,})$`: at least three lowercase
letters, the first being the one-letter first segment. -/
def matchFlast (s : String) : Bool := s.data.all isLowerCh && 3 ≤ s.data.length

/-- Regex `^(?P<first>[a-z])\.(?P<last>[a-z]{2,})$`. -/
def matchFDotLast (s : String) : Bool :=
  match s.data with
  | c :: d :: b => isLowerCh c && d == '.' && b.all isLowerCh && 2 ≤ b.length
  | _ => false

/-- `PatternDetector.PATTERNS`: the fixed ordered pattern list, in source
order. -/
def PATTERNS : List (String × (String → Bool)) :=
  [("first.last", matchFirstDotLast),
   ("first_last", matchFirstUscoreLast),
   ("first-last", matchFirstDashLast),
   ("flast", matchFlast),
   ("f.last", matchFDotLast)]

/-- The personal-domain set used by `PatternDetector._is_personal_email`. -/
def PD_PERSONAL_DOMAINS : List String :=
  ["gmail.com", "yahoo.com", "outlook.com", "hotmail.com", "icloud.com",
   "live.com", "me.com"]

/-- `PatternDetector._is_personal_email`: domain part (lowercased) is in the
personal set; an address without `@` yields `False` via the caught
`IndexError`. -/
def is_personal_email (email : String) : Bool :=
  match splitAtChar '@' email.data with
  | _ :: d :: _ => PD_PERSONAL_DOMAINS.contains (toLowerStr ⟨d⟩)
  | _ => false

/-- Input record for `learn_from_discovered`:
`{"email": ..., "is_role_based": ...}`. -/
structure DiscInput where
  email : String
  role_based : Bool
  deriving DecidableEq

/-- The `valid_for_pattern` list: local parts (lowercased) of the inputs
that are neither role-based nor personal-domain. -/
def eligibleLocals (emails : List DiscInput) : List String :=
  (emails.filter (fun e => !e.role_based && !is_personal_email e.email)).map
    (fun e => toLowerStr (localPartOf e.email))

/-- The `pattern_matches` dict: for each pattern in `PATTERNS` order, the
number of locals it matches, keeping only patterns with a positive count
(Python dicts preserve insertion order). -/
def patternMatches (locals : List String) : List (String × Nat) :=
  (PATTERNS.map (fun p => (p.1, locals.countP p.2))).filter (fun q => 0 < q.2)

/-- Python `max(pattern_matches, key=pattern_matches.get)`: the first entry
attaining the maximal count (`max` keeps the earliest maximum). -/
def firstMax : List (String × Nat) → Option (String × Nat)
  | [] => none
  | p :: rest => some (rest.foldl (fun best q => if best.2 < q.2 then q else best) p)

/-- The dominance ratio computed by `learn_from_discovered`: dominant count
over total matches (0 when no pattern matched). -/
def dominanceShare (pm : List (String × Nat)) : ℚ :=
  match firstMax pm with
  | none => 0
  | some q => (q.2 : ℚ) / ((pm.map Prod.snd).sum : ℕ)

/-- Dominant count of the learning run on `emails` (0 when nothing matched). -/
def dominantCountOf (emails : List DiscInput) : Nat :=
  match firstMax (patternMatches (eligibleLocals emails)) with
  | none => 0
  | some q => q.2

/-- Eligible sample size of the learning run on `emails`. -/
def sampleSizeOf (emails : List DiscInput) : Nat :=
  (eligibleLocals emails).length

/-- `PatternDetector.learn_from_discovered`. -/
def learn_from_discovered (emails : List DiscInput) : Option String × ℚ :=
  if emails.isEmpty then (none, 0)
  else
    let valid := eligibleLocals emails
    if valid.length < 1 then (none, 0)
    else if valid.length < 2 then (none, 0)
    else
      let pm := patternMatches valid
      match firstMax pm with
      | none => (none, 0)
      | some dq =>
        let dominance : ℚ := (dq.2 : ℚ) / ((pm.map Prod.snd).sum : ℕ)
        if dominance < 7/10 then (none, 0)
        else
          let sample_penalty : ℚ := min ((valid.length : ℚ) / 3) 1
          let raw : ℚ := (dq.2 : ℚ) / (valid.length : ℚ)
          let conf := raw * sample_penalty
          if conf < 3/5 then (none, 0)
          else (some dq.1, conf)

/-! ### ConfidenceEngineWithDecay (src/backend/app/scoring/confidence_with_decay.py) -/

/-- Result record of `apply_decay` (the `reason` log string is elided). -/
structure DecayResult where
  base_confidence : ℚ
  decay_factor : ℚ
  final_confidence : ℚ
  days_old : ℕ
  source : String
  verification_status : String
  deriving DecidableEq

/-- The per-day decay rate chosen by `apply_decay` from (source,
verification_status); any other source gets rate 0. -/
def decayRatePerDay (source verification_status : String) : ℚ :=
  if source = "discovered" then
    if verification_status = "valid" then (5/100) / 90 else (10/100) / 30
  else if source = "inferred" then
    if verification_status = "valid" then (5/100) / 180 else (20/100) / 7
  else 0

/-- `ConfidenceEngineWithDecay.apply_decay`.  The two datetimes of the
Python signature are abstracted to the elapsed age in days that the code
derives from them. -/
def apply_decay (base_confidence : ℚ) (source : String) (days_old : ℕ)
    (verification_status : String) : DecayResult :=
  if source = "discovered" ∧ base_confidence = 1 then
    { base_confidence := 1, decay_factor := 1, final_confidence := 1,
      days_old := 0, source := source,
      verification_status := verification_status }
  else
    let rate := decayRatePerDay source verification_status
    let total_decay := min (rate * days_old) (1/2)
    let decay_factor := 1 - total_decay
    { base_confidence := base_confidence, decay_factor := decay_factor,
      final_confidence := base_confidence * decay_factor,
      days_old := days_old, source := source,
      verification_status := verification_status }

/-! ### SMTP result and interpreter
(src/backend/app/verification/smtp.py, interpreter.py) -/

/-- `SMTPVerificationResult`: the raw technical signals (timestamps elided). -/
structure SMTPVerificationResult where
  email : String
  syntax_valid : Bool
  mx_valid : Bool
  smtp_accepts : Bool
  catch_all : Bool
  greylisted : Bool
  smtp_error : Option String
  deriving DecidableEq

/-- `SMTPResultInterpreter.interpret` output. -/
structure Interpretation where
  syntax_valid : Bool
  mx_valid : Bool
  smtp_accepts : Bool
  catch_all : Bool
  error : Option String
  can_verify : Bool
  deriving DecidableEq

/-- `SMTPResultInterpreter.interpret`. -/
def interpret (r : SMTPVerificationResult) : Interpretation :=
  { syntax_valid := r.syntax_valid, mx_valid := r.mx_valid,
    smtp_accepts := r.smtp_accepts, catch_all := r.catch_all,
    error := r.smtp_error,
    can_verify := r.syntax_valid && r.mx_valid }

/-! ### LayeredConfidenceEngine (src/backend/app/scoring/confidence_layered.py) -/

/-- Result of `score_email_existence` (`reason` strings elided; the
`smtp_ignored` key appears only in the discovered branch and is elided). -/
structure ExistenceResult where
  email_exists : Bool
  existence_confidence : ℚ
  is_factual : Bool
  deriving DecidableEq

/-- `LayeredConfidenceEngine.score_email_existence`. -/
def score_email_existence (email : String) (source : String)
    (smtp_result : Option SMTPVerificationResult) : ExistenceResult :=
  if source = "discovered" then
    { email_exists := true, existence_confidence := 1, is_factual := true }
  else if source = "verification_inferred" then
    match smtp_result with
    | some r =>
      if (interpret r).smtp_accepts then
        { email_exists := true, existence_confidence := 1, is_factual := true }
      else
        { email_exists := false, existence_confidence := 0, is_factual := false }
    | none =>
      { email_exists := false, existence_confidence := 0, is_factual := false }
  else
    { email_exists := false, existence_confidence := 0, is_factual := false }

/-- Result of `score_person_association` (`reason` elided; the refusal
branch carries no pattern/signal keys, modelled as zeroes). -/
structure AssociationResult where
  person_match_confidence : ℚ
  pattern_confidence_used : ℚ
  verification_signal : ℚ
  deriving DecidableEq

/-- Python truthiness of the `pattern_used : Optional[str]` argument:
`None` and the empty string are falsy. -/
def patternFalsy : Option String → Bool
  | none => true
  | some s => s.isEmpty

/-- `LayeredConfidenceEngine.score_person_association`. -/
def score_person_association (person_first person_last email : String)
    (pattern_used : Option String) (pattern_confidence : ℚ)
    (smtp_result : Option SMTPVerificationResult) : AssociationResult :=
  if patternFalsy pattern_used ∨ pattern_confidence < 3/5 then
    { person_match_confidence := 0, pattern_confidence_used := 0,
      verification_signal := 0 }
  else
    let base_confidence := pattern_confidence * (4/10)
    let verification_signal : ℚ :=
      match smtp_result with
      | some r =>
        let i := interpret r
        if i.smtp_accepts && !i.catch_all then 55/100
        else if i.catch_all then 10/100
        else 0
      | none => 0
    let total_confidence := base_confidence + verification_signal
    { person_match_confidence := min total_confidence (95/100),
      pattern_confidence_used := pattern_confidence,
      verification_signal := verification_signal }

/-! ### ResponseEnforcer (src/backend/app/discovery/enforcer.py) -/

/-- The open-shaped email dict of the enforcement layer, modelled with the
fields that `ResponseEnforcer` reads or writes. -/
structure EmailRecord where
  email : String
  source : String
  email_type : String
  confidence : ℚ
  existence_confidence : ℚ
  is_factual : Bool
  no_decay_applied : Bool
  show_by_default : Bool
  label : String
  deriving DecidableEq

/-- `ResponseEnforcer.enforce_discovered_response`. -/
def enforce_discovered_response (r : EmailRecord) : EmailRecord :=
  if r.source ≠ "discovered" then r
  else
    { r with
      existence_confidence := 1,
      confidence := 1,
      is_factual := true,
      no_decay_applied := true,
      label :=
        if r.email_type = "personal" then
          "Found on company website (personal email)"
        else "Found on company website" }

/-- `ResponseEnforcer.enforce_inferred_response` (the percentage
interpolation of the high-confidence label is elided). -/
def enforce_inferred_response (r : EmailRecord) : EmailRecord :=
  if r.source ≠ "inferred" then r
  else
    let confidence := min r.confidence (95/100)
    { r with
      confidence := confidence,
      is_factual := false,
      show_by_default := decide ((75/100 : ℚ) ≤ confidence),
      label :=
        if confidence < 75/100 then
          "Generated (unverified) - not shown by default"
        else "Generated + verified" }

/-- Descending-confidence order used by `enforce_response_ordering`'s
`sort(key=confidence, reverse=True)`. -/
def confGE (a b : EmailRecord) : Prop := b.confidence ≤ a.confidence

instance : DecidableRel confGE := fun a b => inferInstanceAs (Decidable (b.confidence ≤ a.confidence))

instance : IsTotal EmailRecord confGE := ⟨fun a b => le_total b.confidence a.confidence⟩

instance : IsTrans EmailRecord confGE := ⟨fun _ _ _ h h' => le_trans h' h⟩

/-- Stable descending sort by confidence (Python `list.sort` is stable;
inserting before the first element of no-greater confidence preserves the
original order of equal-confidence records). -/
def sortByConfDesc (l : List EmailRecord) : List EmailRecord :=
  List.insertionSort confGE l

/-- The single loop of `enforce_response_ordering` that splits the input
into the discovered / verification_inferred / inferred groups, dropping
every other source. -/
def partition3 : List EmailRecord → List EmailRecord × List EmailRecord × List EmailRecord
  | [] => ([], [], [])
  | e :: rest =>
    let r := partition3 rest
    if e.source = "discovered" then (e :: r.1, r.2.1, r.2.2)
    else if e.source = "verification_inferred" then (r.1, e :: r.2.1, r.2.2)
    else if e.source = "inferred" then (r.1, r.2.1, e :: r.2.2)
    else r

/-- `ResponseEnforcer.enforce_response_ordering`. -/
def enforce_response_ordering (emails : List EmailRecord) : List EmailRecord :=
  let r := partition3 emails
  sortByConfDesc r.1 ++ sortByConfDesc r.2.1 ++ sortByConfDesc r.2.2

/-! ### PublicDiscoveryEngine (src/backend/app/discovery/service.py) -/

/-- `DiscoveredEmail` of the discovery service (`confidence_boost` is set
right after construction by `_add_email`). -/
structure DiscoveredEmail where
  email : String
  domain : String
  source : String
  url : String
  occurrences : ℕ
  email_type : String
  confidence_boost : ℚ
  deriving DecidableEq

/-- `DiscoveredEmail.__init__` with the default count 1. -/
def mkDiscoveredEmail (email source url email_type : String) : DiscoveredEmail :=
  { email := toLowerStr email,
    domain := toLowerStr (domainOf email),
    source := source, url := url, occurrences := 1,
    email_type := email_type, confidence_boost := 0 }

/-- The `self.discovered_emails` dict, as an insertion-ordered association
list keyed by lowercased address. -/
abbrev EmailMap := List (String × DiscoveredEmail)

/-- Dict lookup by key. -/
def findKey : EmailMap → String → Option DiscoveredEmail
  | [], _ => none
  | (k, v) :: rest, key => if k = key then some v else findKey rest key

/-- `PublicDiscoveryEngine._add_email`: increment the occurrence count of
an existing entry in place, or append a fresh entry with the boost. -/
def add_email (st : EmailMap) (email source url : String) (boost : ℚ)
    (email_type : String) : EmailMap :=
  let key := toLowerStr email
  if (findKey st key).isSome then
    st.map (fun p =>
      if p.1 = key then (p.1, { p.2 with occurrences := p.2.occurrences + 1 })
      else p)
  else
    st ++ [(key, { mkDiscoveredEmail email source url email_type with
                     confidence_boost := boost })]

/-- The placeholder-domain substrings of `_filter_discovered_emails`. -/
def FAKE_SUBSTRINGS : List String :=
  ["example.com", "test.com", "domain.com", "yourcompany.com",
   "yourdomain.com", "email.com", "company.com"]

/-- The asset-file suffixes of `_filter_discovered_emails`. -/
def ASSET_SUFFIXES : List String :=
  [".png", ".jpg", ".gif", ".svg", ".webp", ".css", ".js"]

/-- First skip test of the filter loop: the address contains a
placeholder-domain substring. -/
def fakeHit (email : String) : Bool :=
  FAKE_SUBSTRINGS.any (fun x => containsL x.data email.data)

/-- Second skip test of the filter loop: the address ends with an asset
extension. -/
def assetHit (email : String) : Bool :=
  ASSET_SUFFIXES.any (fun x => endsWithL x.data email.data)

/-- `PublicDiscoveryEngine._filter_discovered_emails`: the loop rebuilding
the dict, skipping fake-domain and asset-suffix addresses and keeping
everything else. -/
def filter_discovered_emails : EmailMap → EmailMap
  | [] => []
  | (k, v) :: rest =>
    if fakeHit k then filter_discovered_emails rest
    else if assetHit k then filter_discovered_emails rest
    else (k, v) :: filter_discovered_emails rest

/-- Modelled from the spec: the noise-filter membership rule the spec
describes for `_filter_discovered_emails` (keep mailto-sourced entries,
entries with occurrence at least 2, strong-source entries, and personal
emails seen on a prominent page).  The code has no notion of a prominent
page, so that judgment is a Boolean parameter. -/
def specNoiseKeep (prominentPersonalPage : Bool) (e : DiscoveredEmail) : Bool :=
  e.source == "mailto_link" || 2 ≤ e.occurrences ||
    e.source == "footer_text" || e.source == "schema_org" ||
    (e.email_type == "personal" && prominentPersonalPage)

/-! ### Claim C1 -/

/-- Claim C1: for discovered-source records the existence confidence is
unconditionally 1.0: `score_email_existence` returns 1.0 regardless of the
SMTP result, `apply_decay` leaves a discovered confidence of 1.0 unchanged
at every age and verification status, and `enforce_discovered_response`
forces the existence confidence to 1.0. -/
theorem C1_discovered_existence_always_one :
    (∀ (email : String) (smtp_result : Option SMTPVerificationResult),
        (score_email_existence email "discovered" smtp_result).existence_confidence = 1) ∧
    (∀ (verification_status : String) (days_old : ℕ),
        (apply_decay 1 "discovered" days_old verification_status).final_confidence = 1) ∧
    (∀ r : EmailRecord, r.source = "discovered" →
        (enforce_discovered_response r).existence_confidence = 1) := by
  refine ⟨?_, ?_, ?_⟩
  · intro email smtp_result
    simp [score_email_existence]
  · intro verification_status days_old
    simp [apply_decay]
  · intro r hr
    simp [enforce_discovered_response, hr]

/-- Witness for C1 at concrete inputs. -/
theorem C1_witness :
    (score_email_existence "ada@northwindtraders.com" "discovered"
        (some { email := "ada@northwindtraders.com", syntax_valid := true,
                mx_valid := true, smtp_accepts := false, catch_all := false,
                greylisted := false, smtp_error := none })).existence_confidence = 1 ∧
    (apply_decay 1 "discovered" 400 "unverified").final_confidence = 1 ∧
    (enforce_discovered_response
        { email := "ada@northwindtraders.com", source := "discovered",
          email_type := "work", confidence := 0, existence_confidence := 0,
          is_factual := false, no_decay_applied := false,
          show_by_default := false, label := "" }).existence_confidence = 1 :=
  ⟨C1_discovered_existence_always_one.1 _ _,
   C1_discovered_existence_always_one.2.1 _ _,
   C1_discovered_existence_always_one.2.2 _ rfl⟩

/-! ### Claim C2 -/

/-- Claim C2: for every combination of pattern confidence and SMTP signals
the association confidence from `score_person_association` is capped at
0.95, hence strictly below 1.0, and `enforce_inferred_response` likewise
caps an inferred record's confidence at 0.95, strictly below 1.0. -/
theorem C2_association_capped_below_one :
    (∀ (person_first person_last email : String) (pattern_used : Option String)
        (pattern_confidence : ℚ) (smtp_result : Option SMTPVerificationResult),
        (score_person_association person_first person_last email pattern_used
            pattern_confidence smtp_result).person_match_confidence ≤ 95/100 ∧
        (score_person_association person_first person_last email pattern_used
            pattern_confidence smtp_result).person_match_confidence < 1) ∧
    (∀ r : EmailRecord, r.source = "inferred" →
        (enforce_inferred_response r).confidence ≤ 95/100 ∧
        (enforce_inferred_response r).confidence < 1) := by
  constructor
  · intro pf pl em pu pc smtp
    have hcap : (score_person_association pf pl em pu pc smtp).person_match_confidence ≤ 95/100 := by
      unfold score_person_association
      split
      · norm_num
      · exact min_le_right _ _
    exact ⟨hcap, lt_of_le_of_lt hcap (by norm_num)⟩
  · intro r hr
    have hcap : (enforce_inferred_response r).confidence ≤ 95/100 := by
      unfold enforce_inferred_response
      rw [if_neg (by simp [hr])]
      exact min_le_right _ _
    exact ⟨hcap, lt_of_le_of_lt hcap (by norm_num)⟩

/-- Witness for C2 at concrete inputs. -/
theorem C2_witness :
    ((score_person_association "john" "doe" "john.doe@northwindtraders.com"
        (some "first.last") (9/10)
        (some { email := "john.doe@northwindtraders.com", syntax_valid := true,
                mx_valid := true, smtp_accepts := true, catch_all := false,
                greylisted := false, smtp_error := none })).person_match_confidence ≤ 95/100 ∧
      (score_person_association "john" "doe" "john.doe@northwindtraders.com"
        (some "first.last") (9/10)
        (some { email := "john.doe@northwindtraders.com", syntax_valid := true,
                mx_valid := true, smtp_accepts := true, catch_all := false,
                greylisted := false, smtp_error := none })).person_match_confidence < 1) ∧
    ((enforce_inferred_response
        { email := "john.doe@northwindtraders.com", source := "inferred",
          email_type := "work", confidence := 2, existence_confidence := 0,
          is_factual := false, no_decay_applied := false,
          show_by_default := false, label := "" }).confidence ≤ 95/100 ∧
      (enforce_inferred_response
        { email := "john.doe@northwindtraders.com", source := "inferred",
          email_type := "work", confidence := 2, existence_confidence := 0,
          is_factual := false, no_decay_applied := false,
          show_by_default := false, label := "" }).confidence < 1) :=
  ⟨C2_association_capped_below_one.1 _ _ _ _ _ _,
   C2_association_capped_below_one.2 _ rfl⟩

/-! ### Claim C8 -/

/-- Claim C8 counterexample: at a discovered, unverified record of base
confidence 1.0 aged 30 days, `apply_decay` returns 1.0 (the factual guard),
not the claimed `base * (1 - min(rate * days, 0.5)) = 0.9`. -/
theorem C8_counterexample :
    (apply_decay 1 "discovered" 30 "unverified").final_confidence ≠
      1 * (1 - min (decayRatePerDay "discovered" "unverified" * (30 : ℕ)) (1/2)) := by
  have h : decayRatePerDay "discovered" "unverified" = (10/100) / 30 := by
    rw [decayRatePerDay, if_pos rfl, if_neg (by decide)]
  rw [apply_decay, if_pos ⟨rfl, rfl⟩, h]
  norm_num [min_def]

/-- Claim C8 as amended: `apply_decay` derives the decay rate from
(source, verification_status) as discovered+valid 0.05/90d, discovered+
non-valid 0.10/30d, inferred+valid 0.05/180d, inferred+non-valid 0.20/7d,
caps the total decay `rate * days` at 0.5 and returns
`base * (1 - total)` — except that a discovered record whose base
confidence is exactly 1.0 is returned as 1.0 by the factual-discovery
guard, bypassing the formula. -/
theorem C8_decay_formula_amended :
    (∀ (verification_status : String) (days_old : ℕ),
        (apply_decay 1 "discovered" days_old verification_status).final_confidence = 1) ∧
    (∀ (base : ℚ) (verification_status : String) (days_old : ℕ), base ≠ 1 →
        (apply_decay base "discovered" days_old verification_status).final_confidence =
          base * (1 - min (decayRatePerDay "discovered" verification_status * days_old) (1/2))) ∧
    (∀ (base : ℚ) (verification_status : String) (days_old : ℕ),
        (apply_decay base "inferred" days_old verification_status).final_confidence =
          base * (1 - min (decayRatePerDay "inferred" verification_status * days_old) (1/2))) ∧
    decayRatePerDay "discovered" "valid" = (5/100) / 90 ∧
    (∀ verification_status, verification_status ≠ "valid" →
        decayRatePerDay "discovered" verification_status = (10/100) / 30) ∧
    decayRatePerDay "inferred" "valid" = (5/100) / 180 ∧
    (∀ verification_status, verification_status ≠ "valid" →
        decayRatePerDay "inferred" verification_status = (20/100) / 7) := by
  refine ⟨?_, ?_, ?_, ?_, ?_, ?_, ?_⟩
  · intro vs d; simp [apply_decay]
  · intro base vs d hb
    rw [apply_decay, if_neg (by simp [hb])]
  · intro base vs d
    rw [apply_decay, if_neg (by simp)]
  · simp [decayRatePerDay]
  · intro vs h; simp [decayRatePerDay, h]
  · simp [decayRatePerDay]
  · intro vs h; simp [decayRatePerDay, h]

/-- Witness for the amended C8 at concrete inputs. -/
theorem C8_witness :
    (apply_decay 1 "discovered" 90 "valid").final_confidence = 1 ∧
    (apply_decay (1/2) "discovered" 30 "unverified").final_confidence =
      (1/2) * (1 - min (decayRatePerDay "discovered" "unverified" * (30 : ℕ)) (1/2)) ∧
    (apply_decay (9/10) "inferred" 7 "unverified").final_confidence =
      (9/10) * (1 - min (decayRatePerDay "inferred" "unverified" * (7 : ℕ)) (1/2)) ∧
    decayRatePerDay "discovered" "unverified" = (10/100) / 30 ∧
    decayRatePerDay "inferred" "unverified" = (20/100) / 7 :=
  ⟨C8_decay_formula_amended.1 _ _,
   C8_decay_formula_amended.2.1 _ _ _ (by norm_num),
   C8_decay_formula_amended.2.2.1 _ _ _,
   C8_decay_formula_amended.2.2.2.2.1 _ (by simp),
   C8_decay_formula_amended.2.2.2.2.2.2 _ (by simp)⟩


/-! ### Claim C5 -/

/-- Claim C5: whenever fewer than 2 samples remain after excluding
role-based and personal-domain emails, `learn_from_discovered` returns
`(none, 0.0)`. -/
theorem C5_insufficient_samples_refuse (emails : List DiscInput)
    (h : (eligibleLocals emails).length < 2) :
    learn_from_discovered emails = (none, 0) := by
  simp only [learn_from_discovered]
  split
  · rfl
  split
  · rfl
  · rfl

/-- Witness for C5: a single role-based email leaves no eligible sample. -/
theorem C5_witness :
    (eligibleLocals [⟨"info@northwindtraders.com", true⟩]).length < 2 ∧
    learn_from_discovered [⟨"info@northwindtraders.com", true⟩] = (none, 0) :=
  ⟨by decide,
   C5_insufficient_samples_refuse [⟨"info@northwindtraders.com", true⟩] (by decide)⟩

/-! ### Claim C6 -/

/-- Claim C6: when the dominant pattern's share of total matches is below
0.7, `learn_from_discovered` returns `(none, 0.0)` regardless of sample
size. -/
theorem C6_low_dominance_refuse (emails : List DiscInput)
    (h : dominanceShare (patternMatches (eligibleLocals emails)) < 7/10) :
    learn_from_discovered emails = (none, 0) := by
  simp only [learn_from_discovered]
  split
  · rfl
  split
  · rfl
  split
  · rfl
  cases hfm : firstMax (patternMatches (eligibleLocals emails)) with
  | none => simp [hfm]
  | some dq =>
    rw [dominanceShare, hfm] at h
    simp only [hfm]
    rw [if_pos h]

/-- Witness for C6: three eligible samples split evenly over three
patterns give a dominance share of 1/3 and learning refuses. -/
theorem C6_witness :
    dominanceShare (patternMatches (eligibleLocals
      [⟨"ab.cd@northwindtraders.com", false⟩,
       ⟨"ef_gh@northwindtraders.com", false⟩,
       ⟨"ij-kl@northwindtraders.com", false⟩])) < 7/10 ∧
    learn_from_discovered
      [⟨"ab.cd@northwindtraders.com", false⟩,
       ⟨"ef_gh@northwindtraders.com", false⟩,
       ⟨"ij-kl@northwindtraders.com", false⟩] = (none, 0) := by
  have hpm : patternMatches (eligibleLocals
      [⟨"ab.cd@northwindtraders.com", false⟩,
       ⟨"ef_gh@northwindtraders.com", false⟩,
       ⟨"ij-kl@northwindtraders.com", false⟩]) =
      [("first.last", 1), ("first_last", 1), ("first-last", 1)] := by rfl
  have hd : dominanceShare (patternMatches (eligibleLocals
      [⟨"ab.cd@northwindtraders.com", false⟩,
       ⟨"ef_gh@northwindtraders.com", false⟩,
       ⟨"ij-kl@northwindtraders.com", false⟩])) < 7/10 := by
    rw [hpm]
    norm_num [dominanceShare, firstMax]
  exact ⟨hd, C6_low_dominance_refuse _ hd⟩

/-! ### Claim C7 -/

/-- Claim C7: whenever `learn_from_discovered` returns a pattern, the
returned confidence equals (dominant count / sample size) times
`min(sample size / 3, 1)` and is at least 0.6; in particular on
`john.doe@acme.com` and `jane.doe@acme.com` it returns `first.last` with
confidence 2/3. -/
theorem C7_confidence_formula :
    (∀ (emails : List DiscInput) (p : String) (c : ℚ),
        learn_from_discovered emails = (some p, c) →
          c = (dominantCountOf emails : ℚ) / (sampleSizeOf emails : ℚ) *
                min ((sampleSizeOf emails : ℚ) / 3) 1 ∧ (3/5 : ℚ) ≤ c) ∧
    learn_from_discovered
      [⟨"john.doe@acme.com", false⟩, ⟨"jane.doe@acme.com", false⟩] =
      (some "first.last", 2/3) := by
  constructor
  · intro emails p c h
    simp only [learn_from_discovered] at h
    split at h
    · simp at h
    split at h
    · simp at h
    split at h
    · simp at h
    cases hfm : firstMax (patternMatches (eligibleLocals emails)) with
    | none => rw [hfm] at h; simp at h
    | some dq =>
      rw [hfm] at h
      simp only [] at h
      split at h
      · simp at h
      split at h
      · simp at h
      next hge =>
        have hc : c = (dq.2 : ℚ) / ((eligibleLocals emails).length : ℚ) *
            min (((eligibleLocals emails).length : ℚ) / 3) 1 :=
          ((Prod.mk.injEq _ _ _ _).mp h).2.symm
        have hdom : dominantCountOf emails = dq.2 := by
          rw [dominantCountOf, hfm]
        refine ⟨by rw [hc, hdom, sampleSizeOf], ?_⟩
        rw [hc]
        exact le_of_not_lt hge
  · have h1 : eligibleLocals
        [⟨"john.doe@acme.com", false⟩, ⟨"jane.doe@acme.com", false⟩] =
        ["john.doe", "jane.doe"] := by rfl
    have h2 : patternMatches ["john.doe", "jane.doe"] = [("first.last", 2)] := by rfl
    simp only [learn_from_discovered, h1, h2]
    norm_num [firstMax]

/-- Witness for C7: the formula instantiated at the two-sample scenario. -/
theorem C7_witness :
    (2/3 : ℚ) =
      (dominantCountOf
          [⟨"john.doe@acme.com", false⟩, ⟨"jane.doe@acme.com", false⟩] : ℚ) /
        (sampleSizeOf
          [⟨"john.doe@acme.com", false⟩, ⟨"jane.doe@acme.com", false⟩] : ℚ) *
        min ((sampleSizeOf
          [⟨"john.doe@acme.com", false⟩, ⟨"jane.doe@acme.com", false⟩] : ℚ) / 3) 1 ∧
    (3/5 : ℚ) ≤ 2/3 :=
  C7_confidence_formula.1 _ "first.last" (2/3) C7_confidence_formula.2

/-! ### Claim C4: supporting lemmas -/

lemma all_takeWhile_self (p : Char → Bool) : ∀ l : List Char, (l.takeWhile p).all p = true := by
  intro l
  induction l with
  | nil => rfl
  | cons x xs ih =>
    by_cases hx : p x = true
    · simp [List.takeWhile, hx, ih]
    · simp [List.takeWhile, Bool.eq_false_iff.mpr hx]

lemma takeWhile_append_sep (p : Char → Bool) (x : Char) (hx : p x = false) :
    ∀ l r : List Char, l.all p = true → (l ++ x :: r).takeWhile p = l := by
  intro l r hl
  induction l with
  | nil => simp [List.takeWhile, hx]
  | cons a as ih =>
    simp only [List.all_cons, Bool.and_eq_true] at hl
    simp [List.takeWhile, hl.1, ih hl.2]

lemma dropWhile_append_sep (p : Char → Bool) (x : Char) (hx : p x = false) :
    ∀ l r : List Char, l.all p = true → (l ++ x :: r).dropWhile p = x :: r := by
  intro l r hl
  induction l with
  | nil => simp [List.dropWhile, hx]
  | cons a as ih =>
    simp only [List.all_cons, Bool.and_eq_true] at hl
    simp [List.dropWhile, hl.1, ih hl.2]

/-- Semantics of the two-segment regexes: an anchored match is exactly a
decomposition into a lowercase run of at least `minFirst` letters, the
separator, and a lowercase run of at least 2 letters. -/
lemma matchSegSeg_iff (minFirst : Nat) (sep : Char) (hsep : isLowerCh sep = false)
    (s : String) :
    matchSegSeg minFirst sep s = true ↔
      ∃ a b : List Char, s.data = a ++ sep :: b ∧ a.all isLowerCh = true ∧
        b.all isLowerCh = true ∧ minFirst ≤ a.length ∧ 2 ≤ b.length := by
  constructor
  · intro h
    simp only [matchSegSeg] at h
    cases hd : s.data.dropWhile isLowerCh with
    | nil => rw [hd] at h; simp at h
    | cons c b =>
      rw [hd] at h
      simp only [Bool.and_eq_true, beq_iff_eq, decide_eq_true_eq] at h
      obtain ⟨⟨⟨hc, hlen⟩, hball⟩, hblen⟩ := h
      refine ⟨s.data.takeWhile isLowerCh, b, ?_, all_takeWhile_self _ _, hball, hlen, hblen⟩
      subst hc
      conv_lhs => rw [← List.takeWhile_append_dropWhile (p := isLowerCh) (l := s.data)]
      rw [hd]
  · rintro ⟨a, b, hsd, hall, hball, hmin, hblen⟩
    simp only [matchSegSeg, hsd,
      takeWhile_append_sep _ _ hsep _ _ hall,
      dropWhile_append_sep _ _ hsep _ _ hall]
    simp [hmin, hball, hblen]

/-- Semantics of the `flast` regex: a single lowercase initial followed by
a lowercase run of at least 2 letters. -/
lemma matchFlast_iff (s : String) :
    matchFlast s = true ↔
      ∃ (c : Char) (b : List Char), s.data = c :: b ∧ isLowerCh c = true ∧
        b.all isLowerCh = true ∧ 2 ≤ b.length := by
  rw [matchFlast]
  cases hd : s.data with
  | nil => simp
  | cons c b =>
    simp only [List.all_cons, Bool.and_eq_true, decide_eq_true_eq, List.length_cons]
    constructor
    · rintro ⟨⟨hc, hb⟩, hlen⟩
      exact ⟨c, b, rfl, hc, hb, by omega⟩
    · rintro ⟨c', b', heq, hc', hb', hlen⟩
      obtain ⟨h1, h2⟩ := List.cons.inj heq
      subst h1; subst h2
      exact ⟨⟨hc', hb'⟩, by omega⟩

/-- Semantics of the `f.last` regex: a single lowercase initial, a dot,
then a lowercase run of at least 2 letters. -/
lemma matchFDotLast_iff (s : String) :
    matchFDotLast s = true ↔
      ∃ (c : Char) (b : List Char), s.data = c :: '.' :: b ∧ isLowerCh c = true ∧
        b.all isLowerCh = true ∧ 2 ≤ b.length := by
  rw [matchFDotLast]
  cases hd : s.data with
  | nil => simp
  | cons c rest =>
    cases rest with
    | nil => simp
    | cons d b =>
      simp only [Bool.and_eq_true, beq_iff_eq, decide_eq_true_eq]
      constructor
      · rintro ⟨⟨⟨hc, hdot⟩, hb⟩, hlen⟩
        exact ⟨c, b, by rw [hdot], hc, hb, hlen⟩
      · rintro ⟨c', b', heq, hc', hb', hlen⟩
        obtain ⟨h1, h2⟩ := List.cons.inj heq
        obtain ⟨h3, h4⟩ := List.cons.inj h2
        subst h1; subst h4
        exact ⟨⟨⟨hc', h3⟩, hb'⟩, hlen⟩

lemma foldl_max_first : ∀ (rest : List (String × Nat)) (p : String × Nat),
    (rest.foldl (fun best q => if best.2 < q.2 then q else best) p) ∈ p :: rest ∧
    p.2 ≤ (rest.foldl (fun best q => if best.2 < q.2 then q else best) p).2 ∧
    (∀ x ∈ rest, x.2 ≤ (rest.foldl (fun best q => if best.2 < q.2 then q else best) p).2) ∧
    (rest.foldl (fun best q => if best.2 < q.2 then q else best) p = p ∨
      ∃ pre post,
        rest = pre ++ (rest.foldl (fun best q => if best.2 < q.2 then q else best) p) :: post ∧
        p.2 < (rest.foldl (fun best q => if best.2 < q.2 then q else best) p).2 ∧
        ∀ x ∈ pre, x.2 < (rest.foldl (fun best q => if best.2 < q.2 then q else best) p).2) := by
  intro rest
  induction rest with
  | nil => intro p; exact ⟨by simp, le_refl _, by simp, Or.inl rfl⟩
  | cons q rest ih =>
    intro p
    by_cases h : p.2 < q.2
    · obtain ⟨hmem, hle, hall, hdec⟩ := ih q
      simp only [List.foldl_cons, if_pos h]
      refine ⟨List.mem_cons_of_mem _ hmem, le_trans (le_of_lt h) hle, ?_, ?_⟩
      · intro x hx
        rcases List.mem_cons.mp hx with h1 | h1
        · rw [h1]; exact hle
        · exact hall x h1
      · rcases hdec with hq | ⟨pre, post, hrest, hqlt, hpre⟩
        · refine Or.inr ⟨[], rest, ?_, ?_, by simp⟩
          · rw [hq]; rfl
          · rw [hq]; exact h
        · refine Or.inr ⟨q :: pre, post, ?_, lt_trans h hqlt, ?_⟩
          · rw [List.cons_append, ← hrest]
          · intro x hx
            rcases List.mem_cons.mp hx with h1 | h1
            · rw [h1]; exact hqlt
            · exact hpre x h1
    · obtain ⟨hmem, hle, hall, hdec⟩ := ih p
      simp only [List.foldl_cons, if_neg h]
      refine ⟨?_, hle, ?_, ?_⟩
      · rcases List.mem_cons.mp hmem with h1 | h1
        · rw [h1]; exact List.mem_cons_self _ _
        · exact List.mem_cons_of_mem _ (List.mem_cons_of_mem _ h1)
      · intro x hx
        rcases List.mem_cons.mp hx with h1 | h1
        · rw [h1]; exact le_trans (le_of_not_lt h) hle
        · exact hall x h1
      · rcases hdec with h1 | ⟨pre, post, hrest, hplt, hpre⟩
        · exact Or.inl h1
        · refine Or.inr ⟨q :: pre, post, ?_, hplt, ?_⟩
          · rw [List.cons_append, ← hrest]
          · intro x hx
            rcases List.mem_cons.mp hx with h1 | h1
            · rw [h1]; exact lt_of_le_of_lt (le_of_not_lt h) hplt
            · exact hpre x h1

/-- `firstMax` returns the FIRST entry of maximal count: the result is a
member of maximal count and every entry listed before it has a strictly
smaller count, so on any tie — in a list of any length — the entry
earlier in the list is kept. -/
lemma firstMax_earliest (pm : List (String × Nat)) (q : String × Nat)
    (h : firstMax pm = some q) :
    q ∈ pm ∧ (∀ p ∈ pm, p.2 ≤ q.2) ∧
      ∃ pre post, pm = pre ++ q :: post ∧ ∀ p ∈ pre, p.2 < q.2 := by
  cases pm with
  | nil => simp [firstMax] at h
  | cons p rest =>
    simp only [firstMax, Option.some.injEq] at h
    obtain ⟨hmem, hle, hall, hdec⟩ := foldl_max_first rest p
    rw [h] at hmem hle hall hdec
    refine ⟨hmem, ?_, ?_⟩
    · intro x hx
      rcases List.mem_cons.mp hx with h1 | h1
      · rw [h1]; exact hle
      · exact hall x h1
    · rcases hdec with h1 | ⟨pre, post, hrest, hplt, hpre⟩
      · exact ⟨[], rest, by rw [h1]; rfl, by simp⟩
      · refine ⟨p :: pre, post, ?_, ?_⟩
        · rw [List.cons_append, ← hrest]
        · intro x hx
          rcases List.mem_cons.mp hx with h1 | h1
          · rw [h1]; exact hplt
          · exact hpre x h1

/-! ### Claim C4 -/

/-- Claim C4 counterexample: the code's pattern list is NOT in the claimed
order `first.last, first_last, first-last, f.last, flast` — `flast`
precedes `f.last` — so on a tie between `flast` and `f.last` the
dominant-pattern selection keeps `flast`, not `f.last` as the claimed
order would imply; and the claimed "name segments of at least 2
characters" fails for the code's regexes: `f.last` and `flast` accept
the single-letter first segments of `j.doe` and `jdoe`. -/
theorem C4_counterexample :
    PATTERNS.map Prod.fst ≠
      ["first.last", "first_last", "first-last", "f.last", "flast"] ∧
    firstMax [("flast", 1), ("f.last", 1)] = some ("flast", 1) ∧
    matchFDotLast "j.doe" = true ∧
    matchFlast "jdoe" = true := by
  refine ⟨?_, rfl, rfl, rfl⟩
  decide

/-- Claim C4 as amended: the pattern detector tests each local part
against the fixed ordered list `first.last, first_last, first-last,
flast, f.last` (with `flast` before `f.last`); each regex is anchored,
the three full-name patterns require both name segments to have at least
2 characters, while `flast` and `f.last` take a single-letter first
initial and a last segment of at least 2 characters; the dominant
pattern selected is always the first maximal entry of the match list —
every pattern listed before it has strictly fewer matches — so whenever
two patterns tie for the most matches, in a match list of any length,
the pattern earlier in that code order is kept. -/
theorem C4_pattern_order_amended :
    PATTERNS.map Prod.fst =
      ["first.last", "first_last", "first-last", "flast", "f.last"] ∧
    (∀ s, matchFirstDotLast s = true ↔
      ∃ a b : List Char, s.data = a ++ '.' :: b ∧ a.all isLowerCh = true ∧
        b.all isLowerCh = true ∧ 2 ≤ a.length ∧ 2 ≤ b.length) ∧
    (∀ s, matchFirstUscoreLast s = true ↔
      ∃ a b : List Char, s.data = a ++ '_' :: b ∧ a.all isLowerCh = true ∧
        b.all isLowerCh = true ∧ 2 ≤ a.length ∧ 2 ≤ b.length) ∧
    (∀ s, matchFirstDashLast s = true ↔
      ∃ a b : List Char, s.data = a ++ '-' :: b ∧ a.all isLowerCh = true ∧
        b.all isLowerCh = true ∧ 2 ≤ a.length ∧ 2 ≤ b.length) ∧
    (∀ s, matchFlast s = true ↔
      ∃ (c : Char) (b : List Char), s.data = c :: b ∧ isLowerCh c = true ∧
        b.all isLowerCh = true ∧ 2 ≤ b.length) ∧
    (∀ s, matchFDotLast s = true ↔
      ∃ (c : Char) (b : List Char), s.data = c :: '.' :: b ∧ isLowerCh c = true ∧
        b.all isLowerCh = true ∧ 2 ≤ b.length) ∧
    (∀ (pm : List (String × Nat)) (q : String × Nat),
        firstMax pm = some q →
          q ∈ pm ∧ (∀ p ∈ pm, p.2 ≤ q.2) ∧
            ∃ pre post, pm = pre ++ q :: post ∧ ∀ p ∈ pre, p.2 < q.2) :=
  ⟨rfl,
   fun s => matchSegSeg_iff 2 '.' rfl s,
   fun s => matchSegSeg_iff 2 '_' rfl s,
   fun s => matchSegSeg_iff 2 '-' rfl s,
   matchFlast_iff,
   matchFDotLast_iff,
   firstMax_earliest⟩

/-- Witness for the amended C4: the first-maximum rule applied to a
concrete three-entry match list in which the two tied leaders follow a
lower-count entry — the earlier leader `flast` is selected — and the
`first.last` regex applied to a concrete local part. -/
theorem C4_witness :
    ((("flast", 2) : String × Nat) ∈
        [("first.last", 1), ("flast", 2), ("f.last", 2)] ∧
      (∀ p ∈ [("first.last", 1), ("flast", 2), ("f.last", 2)],
        p.2 ≤ (("flast", 2) : String × Nat).2) ∧
      ∃ pre post,
        [("first.last", 1), ("flast", 2), ("f.last", 2)] =
          pre ++ (("flast", 2) : String × Nat) :: post ∧
        ∀ p ∈ pre, p.2 < (("flast", 2) : String × Nat).2) ∧
    (matchFirstDotLast "john.doe" = true ↔
      ∃ a b : List Char, "john.doe".data = a ++ '.' :: b ∧
        a.all isLowerCh = true ∧ b.all isLowerCh = true ∧
        2 ≤ a.length ∧ 2 ≤ b.length) :=
  ⟨C4_pattern_order_amended.2.2.2.2.2.2
      [("first.last", 1), ("flast", 2), ("f.last", 2)] ("flast", 2) rfl,
   C4_pattern_order_amended.2.1 "john.doe"⟩

/-! ### Claim C3 -/

/-- Claim C3 counterexample: a work email sighted once, sourced from plain
page text (not mailto, not footer, not schema.org), is dropped by the
claimed membership rule but kept by `_filter_discovered_emails`, which
only removes placeholder-domain and asset-suffix addresses. -/
theorem C3_counterexample :
    filter_discovered_emails
      [("bob@northwindtraders.com",
        { email := "bob@northwindtraders.com", domain := "northwindtraders.com",
          source := "page_text", url := "https://northwindtraders.com/team",
          occurrences := 1, email_type := "work", confidence_boost := 0 })] =
      [("bob@northwindtraders.com",
        { email := "bob@northwindtraders.com", domain := "northwindtraders.com",
          source := "page_text", url := "https://northwindtraders.com/team",
          occurrences := 1, email_type := "work", confidence_boost := 0 })] ∧
    specNoiseKeep false
      { email := "bob@northwindtraders.com", domain := "northwindtraders.com",
        source := "page_text", url := "https://northwindtraders.com/team",
        occurrences := 1, email_type := "work", confidence_boost := 0 } = false ∧
    specNoiseKeep true
      { email := "bob@northwindtraders.com", domain := "northwindtraders.com",
        source := "page_text", url := "https://northwindtraders.com/team",
        occurrences := 1, email_type := "work", confidence_boost := 0 } = false :=
  ⟨rfl, rfl, rfl⟩

/-- Claim C3 as amended: after crawling, `_filter_discovered_emails`
decides membership solely by the address string: an entry is kept exactly
when its address neither contains a placeholder-domain substring
(example.com, test.com, domain.com, yourcompany.com, yourdomain.com,
email.com, company.com) nor ends with an asset extension (.png, .jpg,
.gif, .svg, .webp, .css, .js); mailto sourcing, occurrence counts, strong
sources, and personal/prominent-page status play no role. -/
theorem C3_filter_membership_amended :
    ∀ m : EmailMap,
      filter_discovered_emails m =
        m.filter (fun p => !fakeHit p.1 && !assetHit p.1) ∧
      ∀ p, p ∈ filter_discovered_emails m ↔
        (p ∈ m ∧ fakeHit p.1 = false ∧ assetHit p.1 = false) := by
  intro m
  have heq : filter_discovered_emails m =
      m.filter (fun p => !fakeHit p.1 && !assetHit p.1) := by
    induction m with
    | nil => rfl
    | cons hd tl ih =>
      by_cases h1 : fakeHit hd.1
      · simp [filter_discovered_emails, List.filter_cons, h1, ih]
      · by_cases h2 : assetHit hd.1
        · simp [filter_discovered_emails, List.filter_cons, h1, h2, ih]
        · simp [filter_discovered_emails, List.filter_cons, h1, h2, ih]
  refine ⟨heq, ?_⟩
  intro p
  rw [heq, List.mem_filter]
  simp [Bool.and_eq_true, Bool.not_eq_true']

/-- Witness for the amended C3 at a one-entry map. -/
theorem C3_witness :
    ("ann@realserverco.com",
      { email := "ann@realserverco.com", domain := "realserverco.com",
        source := "raw_html", url := "https://realserverco.com",
        occurrences := 1, email_type := "work", confidence_boost := 0 }) ∈
      filter_discovered_emails
        [("ann@realserverco.com",
          { email := "ann@realserverco.com", domain := "realserverco.com",
            source := "raw_html", url := "https://realserverco.com",
            occurrences := 1, email_type := "work", confidence_boost := 0 })] :=
  ((C3_filter_membership_amended
      [("ann@realserverco.com",
        { email := "ann@realserverco.com", domain := "realserverco.com",
          source := "raw_html", url := "https://realserverco.com",
          occurrences := 1, email_type := "work", confidence_boost := 0 })]).2 _).mpr
    ⟨List.mem_singleton.mpr rfl, rfl, rfl⟩

/-! ### Claim C9: supporting lemmas -/

lemma findKey_none_keys : ∀ (st : EmailMap) (k : String),
    findKey st k = none → ∀ p ∈ st, p.1 ≠ k := by
  intro st k h
  induction st with
  | nil => intro p hp; simp at hp
  | cons q rest ih =>
    obtain ⟨k', v⟩ := q
    simp only [findKey] at h
    split at h
    · exact absurd h (by simp)
    · intro p hp
      rcases List.mem_cons.mp hp with h1 | h1
      · rw [h1]; assumption
      · exact ih h p h1

lemma filter_key_nil (st : EmailMap) (k : String)
    (h : findKey st k = none) :
    st.filter (fun p => p.1 = k) = [] := by
  rw [List.filter_eq_nil_iff]
  intro p hp
  simpa using findKey_none_keys st k h p hp

lemma map_bump_id (st : EmailMap) (k : String)
    (h : ∀ p ∈ st, p.1 ≠ k) :
    st.map (fun p =>
      if p.1 = k then (p.1, { p.2 with occurrences := p.2.occurrences + 1 })
      else p) = st := by
  induction st with
  | nil => rfl
  | cons q rest ih =>
    simp only [List.map_cons]
    rw [if_neg (h q (List.mem_cons_self _ _)),
      ih (fun p hp => h p (List.mem_cons_of_mem _ hp))]

lemma findKey_append_self (st : EmailMap) (k : String) (v : DiscoveredEmail)
    (h : findKey st k = none) :
    findKey (st ++ [(k, v)]) k = some v := by
  induction st with
  | nil => simp [findKey]
  | cons q rest ih =>
    obtain ⟨k', v'⟩ := q
    simp only [findKey] at h ⊢
    split at h
    · exact absurd h (by simp)
    · rw [if_neg (by assumption)]
      exact ih h

/-- `_add_email` on a map without the key appends a fresh entry. -/
lemma add_email_absent (st : EmailMap) (email source url email_type : String)
    (boost : ℚ) (h : findKey st (toLowerStr email) = none) :
    add_email st email source url boost email_type =
      st ++ [(toLowerStr email,
        { mkDiscoveredEmail email source url email_type with
            confidence_boost := boost })] := by
  simp only [add_email, h, Option.isSome_none, Bool.false_eq_true, if_false]

/-- `_add_email` on a map whose only entry for the key sits at the end
bumps that entry's occurrence count in place. -/
lemma add_email_present_append (st : EmailMap)
    (email source url email_type : String) (boost : ℚ) (v : DiscoveredEmail)
    (h : findKey st (toLowerStr email) = none) :
    add_email (st ++ [(toLowerStr email, v)]) email source url boost email_type =
      st ++ [(toLowerStr email, { v with occurrences := v.occurrences + 1 })] := by
  simp only [add_email, findKey_append_self _ _ _ h, Option.isSome_some, if_true]
  rw [List.map_append, map_bump_id st _ (findKey_none_keys _ _ h)]
  simp

/-! ### Claim C9 -/

/-- Claim C9: sighting the same address three times (with any sources,
URLs, boosts and types) on a map that does not yet contain it yields
exactly one entry keyed by the lowercased address, whose occurrence count
is 3. -/
theorem C9_dedup_three_sightings (st : EmailMap) (email : String)
    (s1 u1 t1 s2 u2 t2 s3 u3 t3 : String) (b1 b2 b3 : ℚ)
    (h : findKey st (toLowerStr email) = none) :
    ((add_email (add_email (add_email st email s1 u1 b1 t1)
          email s2 u2 b2 t2) email s3 u3 b3 t3).filter
        (fun p => p.1 = toLowerStr email)).map (fun p => p.2.occurrences) =
      [3] := by
  rw [add_email_absent _ _ _ _ _ _ h,
    add_email_present_append _ _ _ _ _ _ _ h,
    add_email_present_append _ _ _ _ _ _ _ h,
    List.filter_append, filter_key_nil _ _ h]
  simp [mkDiscoveredEmail]

/-- Witness for C9: three sightings of one address on three pages of an
initially empty map. -/
theorem C9_witness :
    ((add_email (add_email (add_email [] "Bob@NorthwindTraders.com"
          "mailto_link" "https://northwindtraders.com/" (20/100) "work")
          "Bob@NorthwindTraders.com" "footer_text"
          "https://northwindtraders.com/about" (15/100) "work")
          "bob@northwindtraders.com" "page_text"
          "https://northwindtraders.com/team" (5/100) "work").filter
        (fun p => p.1 = toLowerStr "Bob@NorthwindTraders.com")).map
      (fun p => p.2.occurrences) = [3] := by
  have h : ((add_email (add_email (add_email [] "Bob@NorthwindTraders.com"
        "mailto_link" "https://northwindtraders.com/" (20/100) "work")
        "Bob@NorthwindTraders.com" "footer_text"
        "https://northwindtraders.com/about" (15/100) "work")
        "Bob@NorthwindTraders.com" "page_text"
        "https://northwindtraders.com/team" (5/100) "work").filter
      (fun p => p.1 = toLowerStr "Bob@NorthwindTraders.com")).map
      (fun p => p.2.occurrences) = [3] :=
    C9_dedup_three_sightings [] "Bob@NorthwindTraders.com"
      "mailto_link" "https://northwindtraders.com/" "work"
      "footer_text" "https://northwindtraders.com/about" "work"
      "page_text" "https://northwindtraders.com/team" "work"
      (20/100) (15/100) (5/100) rfl
  simpa using h

/-! ### Claim C10: supporting lemma -/

lemma partition3_filters : ∀ l : List EmailRecord,
    (partition3 l).1 = l.filter (fun e => e.source = "discovered") ∧
    (partition3 l).2.1 = l.filter (fun e => e.source = "verification_inferred") ∧
    (partition3 l).2.2 = l.filter (fun e => e.source = "inferred") := by
  intro l
  induction l with
  | nil => exact ⟨rfl, rfl, rfl⟩
  | cons e rest ih =>
    obtain ⟨ih1, ih2, ih3⟩ := ih
    by_cases h1 : e.source = "discovered"
    · simp [partition3, List.filter_cons, h1, ih1, ih2, ih3]
    · by_cases h2 : e.source = "verification_inferred"
      · simp [partition3, List.filter_cons, h1, h2, ih1, ih2, ih3]
      · by_cases h3 : e.source = "inferred"
        · simp [partition3, List.filter_cons, h1, h2, h3, ih1, ih2, ih3]
        · simp [partition3, List.filter_cons, h1, h2, h3, ih1, ih2, ih3]

/-! ### Claim C10 -/

/-- Claim C10: `enforce_response_ordering` returns exactly the records
whose source is discovered, verification_inferred or inferred, as those
three groups in that order, each group a permutation of the matching
input records sorted by descending confidence; records with any other
source are silently dropped. -/
theorem C10_response_ordering (emails : List EmailRecord) :
    enforce_response_ordering emails =
      sortByConfDesc (emails.filter (fun e => e.source = "discovered")) ++
      sortByConfDesc (emails.filter (fun e => e.source = "verification_inferred")) ++
      sortByConfDesc (emails.filter (fun e => e.source = "inferred")) ∧
    (∀ l : List EmailRecord,
      (sortByConfDesc l).Perm l ∧ List.Sorted confGE (sortByConfDesc l)) ∧
    (∀ e ∈ enforce_response_ordering emails,
      e.source = "discovered" ∨ e.source = "verification_inferred" ∨
        e.source = "inferred") := by
  obtain ⟨h1, h2, h3⟩ := partition3_filters emails
  have hsort : ∀ l : List EmailRecord,
      (sortByConfDesc l).Perm l ∧ List.Sorted confGE (sortByConfDesc l) :=
    fun l => ⟨List.perm_insertionSort confGE l, List.sorted_insertionSort confGE l⟩
  have heq : enforce_response_ordering emails =
      sortByConfDesc (emails.filter (fun e => e.source = "discovered")) ++
      sortByConfDesc (emails.filter (fun e => e.source = "verification_inferred")) ++
      sortByConfDesc (emails.filter (fun e => e.source = "inferred")) := by
    rw [enforce_response_ordering, h1, h2, h3]
  refine ⟨heq, hsort, ?_⟩
  intro e he
  rw [heq] at he
  have hmem : ∀ (s : String) (l : List EmailRecord),
      e ∈ sortByConfDesc (l.filter (fun x => x.source = s)) → e.source = s := by
    intro s l hm
    have : e ∈ l.filter (fun x => x.source = s) := ((hsort _).1.mem_iff).mp hm
    exact of_decide_eq_true (List.mem_filter.mp this).2
  rcases List.mem_append.mp he with hab | hc
  · rcases List.mem_append.mp hab with ha | hb
    · exact Or.inl (hmem _ _ ha)
    · exact Or.inr (Or.inl (hmem _ _ hb))
  · exact Or.inr (Or.inr (hmem _ _ hc))

/-- Witness for C10: a generated record is dropped while the discovered
record survives and is classified. -/
theorem C10_witness :
    ({ email := "ada@northwindtraders.com", source := "discovered",
       email_type := "work", confidence := 1, existence_confidence := 1,
       is_factual := true, no_decay_applied := true, show_by_default := true,
       label := "" } : EmailRecord).source = "discovered" ∨
    ({ email := "ada@northwindtraders.com", source := "discovered",
       email_type := "work", confidence := 1, existence_confidence := 1,
       is_factual := true, no_decay_applied := true, show_by_default := true,
       label := "" } : EmailRecord).source = "verification_inferred" ∨
    ({ email := "ada@northwindtraders.com", source := "discovered",
       email_type := "work", confidence := 1, existence_confidence := 1,
       is_factual := true, no_decay_applied := true, show_by_default := true,
       label := "" } : EmailRecord).source = "inferred" :=
  (C10_response_ordering
    [{ email := "info@northwindtraders.com", source := "generated",
       email_type := "work", confidence := 0, existence_confidence := 0,
       is_factual := false, no_decay_applied := false, show_by_default := false,
       label := "" },
     { email := "ada@northwindtraders.com", source := "discovered",
       email_type := "work", confidence := 1, existence_confidence := 1,
       is_factual := true, no_decay_applied := true, show_by_default := true,
       label := "" }]).2.2 _
    (by
      have : enforce_response_ordering
          [{ email := "info@northwindtraders.com", source := "generated",
             email_type := "work", confidence := 0, existence_confidence := 0,
             is_factual := false, no_decay_applied := false,
             show_by_default := false, label := "" },
           { email := "ada@northwindtraders.com", source := "discovered",
             email_type := "work", confidence := 1, existence_confidence := 1,
             is_factual := true, no_decay_applied := true,
             show_by_default := true, label := "" }] =
          [{ email := "ada@northwindtraders.com", source := "discovered",
             email_type := "work", confidence := 1, existence_confidence := 1,
             is_factual := true, no_decay_applied := true,
             show_by_default := true, label := "" }] := rfl
      rw [this]
      exact List.mem_singleton.mpr rfl)
